import Mathlib

/-!
Verification of the django-multires image transformation pipeline
(multires/processors.py and multires/engines.py), shallowly embedded in Lean.

Python floats are modelled exactly by rationals; the trigonometric
rotate-crop sizing is modelled over the reals.  PIL primitives that the
repository merely calls (bicubic rotation, antialias resampling, mode
conversion pixel content, compositing) are abstracted into a backend
structure; PIL operations with well-known semantics (crop, transpose,
Image.new) are modelled concretely.
-/

set_option maxHeartbeats 1000000
set_option maxRecDepth 10000

namespace Multires

/-- Python int() conversion: truncation toward zero of a rational. -/
def truncQ (q : ℚ) : ℤ := if q < 0 then -⌊-q⌋ else ⌊q⌋

/-- Python int() conversion: truncation toward zero of a real number. -/
noncomputable def truncR (x : ℝ) : ℤ := if x < 0 then -⌊-x⌋ else ⌊x⌋

/-- An RGBA-style pixel value. -/
abbrev Pixel := ℕ × ℕ × ℕ × ℕ

/-- A raster image: dimensions, a color mode tag and a pixel buffer
(modelled as a total function; only indices below the dimensions are
meaningful). -/
structure Img where
  width : ℕ
  height : ℕ
  mode : String
  pixel : ℕ → ℕ → Pixel

/-- Size of an image as PIL reports it. -/
def Img.size (img : Img) : ℕ × ℕ := (img.width, img.height)

/-- Two images that agree on dimensions, mode and every in-range pixel. -/
def Img.pixelIdentical (a b : Img) : Prop :=
  a.width = b.width ∧ a.height = b.height ∧ a.mode = b.mode ∧
    ∀ x y, x < a.width → y < a.height → a.pixel x y = b.pixel x y

/-- Python exceptions raised by the pipeline code. -/
inductive PyError
  | valueError (msg : String)
  | attributeError (msg : String)
  deriving DecidableEq, Repr

/-- PIL transpose method constants used by the repository. -/
inductive TransposeMethod
  | flipLeftRight
  | flipTopBottom
  | rotate90
  | rotate180
  | rotate270
  deriving DecidableEq, Repr

/-- PIL Image.transpose: exact lossless flips and 90-degree rotations. -/
def Img.transpose (img : Img) : TransposeMethod → Img
  | .flipLeftRight =>
      { img with pixel := fun x y => img.pixel (img.width - 1 - x) y }
  | .flipTopBottom =>
      { img with pixel := fun x y => img.pixel x (img.height - 1 - y) }
  | .rotate90 =>
      { width := img.height, height := img.width, mode := img.mode,
        pixel := fun x y => img.pixel y (img.height - 1 - x) }
  | .rotate180 =>
      { img with pixel := fun x y =>
          img.pixel (img.width - 1 - x) (img.height - 1 - y) }
  | .rotate270 =>
      { width := img.height, height := img.width, mode := img.mode,
        pixel := fun x y => img.pixel (img.width - 1 - y) x }

/-- PIL Image.crop with an integer box (x1, y1, x2, y2): the result has
size (x2 - x1, y2 - y1); pixels outside the source are zero-filled. -/
def Img.crop (img : Img) (box : ℤ × ℤ × ℤ × ℤ) : Img :=
  let x1 := box.1
  let y1 := box.2.1
  let x2 := box.2.2.1
  let y2 := box.2.2.2
  { width := (x2 - x1).toNat, height := (y2 - y1).toNat, mode := img.mode,
    pixel := fun i j =>
      let sx := x1 + i
      let sy := y1 + j
      if 0 ≤ sx ∧ sx < img.width ∧ 0 ≤ sy ∧ sy < img.height then
        img.pixel sx.toNat sy.toNat
      else (0, 0, 0, 0) }

/-- PIL Image.new with a constant fill color. -/
def imageNew (mode : String) (size : ℕ × ℕ) (color : Pixel) : Img :=
  { width := size.1, height := size.2, mode := mode, pixel := fun _ _ => color }

/-- PIL primitives whose pixel-level or canvas-size behavior the repository
does not define itself: they are parameters of the verification. -/
structure PILBackend where
  resamplePx : Img → ℕ → ℕ → ℕ → ℕ → Pixel
  rotatedSize : Img → ℤ → Bool → ℕ × ℕ
  rotatePx : Img → ℤ → Bool → ℕ → ℕ → Pixel
  convertPx : Img → String → ℕ → ℕ → Pixel
  compositePx : Img → Img → Img → ℕ → ℕ → Pixel

/-- PIL Image.resize with the ANTIALIAS filter: the new size is the given
one, the pixel content comes from the resampling backend. -/
def PILBackend.resize (b : PILBackend) (img : Img) (size : ℤ × ℤ) : Img :=
  { width := size.1.toNat, height := size.2.toNat, mode := img.mode,
    pixel := b.resamplePx img size.1.toNat size.2.toNat }

/-- PIL Image.rotate with the BICUBIC filter and the expand flag. -/
def PILBackend.rotate (b : PILBackend) (img : Img) (degrees : ℤ)
    (expand : Bool) : Img :=
  { width := (b.rotatedSize img degrees expand).1,
    height := (b.rotatedSize img degrees expand).2,
    mode := img.mode,
    pixel := b.rotatePx img degrees expand }

/-- PIL Image.convert: the mode changes, the size is preserved, the pixel
content comes from the backend. -/
def PILBackend.convert (b : PILBackend) (img : Img) (mode : String) : Img :=
  { width := img.width, height := img.height, mode := mode,
    pixel := b.convertPx img mode }

/-- PIL Image.composite of two images through a mask: same size as the
first image, pixel content from the backend. -/
def PILBackend.composite (b : PILBackend) (a bg mask : Img) : Img :=
  { width := a.width, height := a.height, mode := a.mode,
    pixel := b.compositePx a bg mask }

/-- A concrete backend instance, used to evaluate the model on examples. -/
def trivialBackend : PILBackend :=
  { resamplePx := fun _ _ _ _ _ => (0, 0, 0, 0),
    rotatedSize := fun img _ _ => (img.width, img.height),
    rotatePx := fun _ _ _ _ _ => (0, 0, 0, 0),
    convertPx := fun _ _ _ _ => (0, 0, 0, 0),
    compositePx := fun _ _ _ _ _ => (0, 0, 0, 0) }

/-- AnchorCropProcessorMixin.get_crop_box: crop box of the given target
size around an anchor point of the image; the target dimensions are first
clamped to the image size; an unknown anchor raises ValueError. -/
def get_crop_box (img : Img) (width height : ℤ) (anchor : String) :
    Except PyError (ℤ × ℤ × ℤ × ℤ) :=
  let w : ℤ := img.width
  let h : ℤ := img.height
  let width := if width > w then w else width
  let height := if height > h then h else height
  let cx : ℤ := truncQ ((w : ℚ) * (1 / 2))
  let cy : ℤ := truncQ ((h : ℚ) * (1 / 2))
  if anchor = "center" ∨ anchor = "crop" ∨ anchor = "fill" then
    let x1 := truncQ ((cx : ℚ) - (width : ℚ) * (1 / 2))
    let y1 := truncQ ((cy : ℚ) - (height : ℚ) * (1 / 2))
    .ok (x1, y1, x1 + width, y1 + height)
  else if anchor = "top" then
    let x1 := truncQ ((cx : ℚ) - (width : ℚ) * (1 / 2))
    .ok (x1, 0, x1 + width, 0 + height)
  else if anchor = "left" then
    let y1 := truncQ ((cy : ℚ) - (height : ℚ) * (1 / 2))
    .ok (0, y1, 0 + width, y1 + height)
  else if anchor = "right" then
    let x1 := w - width
    let y1 := truncQ ((cy : ℚ) - (height : ℚ) * (1 / 2))
    .ok (x1, y1, x1 + width, y1 + height)
  else if anchor = "bottom" then
    let x1 := truncQ ((cx : ℚ) - (width : ℚ) * (1 / 2))
    let y1 := h - height
    .ok (x1, y1, x1 + width, y1 + height)
  else
    .error (.valueError ("Unsupported anchor " ++ anchor))

/-- CropProcessor.get_crop_box: convert the edge-relative crop insets into
an absolute pixel box from the origin.  Missing components default to 0;
in percent mode each inset is a percentage of the source dimension. -/
def cropGetCropBox (inputW inputH : ℕ)
    (cropBox : Option (Option ℚ × Option ℚ × Option ℚ × Option ℚ))
    (cropPercent : Bool) : ℤ × ℤ × ℤ × ℤ :=
  let c : ℚ × ℚ × ℚ × ℚ :=
    match cropBox with
    | none => (0, 0, 0, 0)
    | some t => (t.1.getD 0, t.2.1.getD 0, t.2.2.1.getD 0, t.2.2.2.getD 0)
  let box : ℚ × ℚ × ℚ × ℚ :=
    if cropPercent then
      (c.1 / 100 * inputW,
       c.2.1 / 100 * inputH,
       (inputW : ℚ) - c.2.2.1 / 100 * inputW,
       (inputH : ℚ) - c.2.2.2 / 100 * inputH)
    else
      (c.1, c.2.1, (inputW : ℚ) - c.2.2.1, (inputH : ℚ) - c.2.2.2)
  (truncQ box.1, truncQ box.2.1, truncQ box.2.2.1, truncQ box.2.2.2)

/-- CropProcessor.process: crop the image to the computed box. -/
def cropProcess (img : Img)
    (cropBox : Option (Option ℚ × Option ℚ × Option ℚ × Option ℚ))
    (cropPercent : Bool) : Img :=
  img.crop (cropGetCropBox img.width img.height cropBox cropPercent)

/-- FlipProcessor.process: empty flip string is the identity; x and h flip
left-right, anything else flips top-bottom. -/
def flipProcess (img : Img) (flip : String) : Img :=
  if flip = "" then img
  else if flip = "x" ∨ flip = "h" then img.transpose .flipLeftRight
  else img.transpose .flipTopBottom

/-- Options of RotateProcessor with the DEFAULTS of the source. -/
structure RotateOptions where
  degrees : ℤ := 0
  extend : Bool := true
  color : Option Pixel := none
  preserve_transparency : Bool := true

/-- RotateProcessor.prep: a rotation can be done by transposition exactly
when the degrees are divisible by 90 (Python modulo). -/
def transposable (degrees : ℤ) : Bool := degrees % 90 == 0

/-- Lookup of the PIL ROTATE_ transpose constants: only 90, 180 and 270
exist; any other name fails the getattr lookup. -/
def rotateTransposeConst (degrees : ℤ) : Option TransposeMethod :=
  if degrees = 90 then some .rotate90
  else if degrees = 180 then some .rotate180
  else if degrees = 270 then some .rotate270
  else none

/-- RotateProcessor.process: fast transpose path for multiples of 90,
otherwise bicubic rotation, with optional background color compositing. -/
def rotateProcess (b : PILBackend) (o : RotateOptions) (img : Img) :
    Except PyError Img :=
  if transposable o.degrees then
    if o.degrees = 0 then .ok img
    else
      match rotateTransposeConst o.degrees with
      | some m => .ok (img.transpose m)
      | none => .error (.attributeError ("ROTATE_" ++ toString o.degrees))
  else
    match o.color with
    | some color =>
        let originalMode := img.mode
        let converted := b.convert img "RGBA"
        let rotated := b.rotate converted o.degrees o.extend
        let background := imageNew "RGBA" rotated.size color
        let composited := b.composite rotated background rotated
        if ¬ o.preserve_transparency ∨ color.2.2.2 = 255 then
          .ok (b.convert composited originalMode)
        else .ok composited
    | none => .ok (b.rotate img o.degrees o.extend)

/-- Options of RotateCropProcessor: the rotate options plus a crop mode. -/
structure RotateCropOptions extends RotateOptions where
  crop_mode : String := "aspect_ratio"

/-- RotateCropProcessor.get_rotated_rect_aspect_ratio: size of the crop of
the rotated canvas that preserves the input aspect ratio. -/
noncomputable def get_rotated_rect_aspect_ratio (inputW inputH : ℕ)
    (degrees : ℤ) (rotatedSize : ℕ × ℕ) : ℤ × ℤ :=
  let aspect_ratio : ℝ := (inputW : ℝ) / inputH
  let rotated_aspect_ratio : ℝ := (rotatedSize.1 : ℝ) / rotatedSize.2
  let angle : ℝ := |(degrees : ℝ)| * Real.pi / 180
  let total_height : ℝ :=
    if aspect_ratio < 1 then (inputW : ℝ) / rotated_aspect_ratio
    else (inputH : ℝ)
  let h : ℝ := total_height / (aspect_ratio * Real.sin angle + Real.cos angle)
  let w : ℝ := h * aspect_ratio
  (truncR w, truncR h)

/-- RotateCropProcessor.get_rotated_rect_max_area: size of the largest
axis-aligned rectangle inscribed in the rotated input rectangle.  The
angle is taken from the raw degrees; only sine and cosine are taken in
absolute value. -/
noncomputable def get_rotated_rect_max_area (inputW inputH : ℕ)
    (degrees : ℤ) : ℤ × ℤ :=
  if inputW ≤ 0 ∨ inputH ≤ 0 then (0, 0)
  else
    let angle : ℝ := (degrees : ℝ) * Real.pi / 180
    let width_is_longer : Bool := decide (inputH ≤ inputW)
    let side_long : ℝ := if width_is_longer then (inputW : ℝ) else (inputH : ℝ)
    let side_short : ℝ := if width_is_longer then (inputH : ℝ) else (inputW : ℝ)
    let sin_a : ℝ := |Real.sin angle|
    let cos_a : ℝ := |Real.cos angle|
    if side_short ≤ 2 * sin_a * cos_a * side_long then
      let x : ℝ := (1 / 2) * side_short
      let wr : ℝ := if width_is_longer then x / sin_a else x / cos_a
      let hr : ℝ := if width_is_longer then x / cos_a else x / sin_a
      (truncR wr, truncR hr)
    else
      let cos_2a : ℝ := cos_a * cos_a - sin_a * sin_a
      (truncR (((inputW : ℝ) * cos_a - (inputH : ℝ) * sin_a) / cos_2a),
       truncR (((inputH : ℝ) * cos_a - (inputW : ℝ) * sin_a) / cos_2a))

/-- Dispatch of the get_rotated_rect_ strategy by crop mode name; an
unknown name fails the getattr lookup. -/
noncomputable def rotateCropRect (mode : String) (inputW inputH : ℕ)
    (degrees : ℤ) (rotated : Img) : Option (ℤ × ℤ) :=
  if mode = "aspect_ratio" then
    some (get_rotated_rect_aspect_ratio inputW inputH degrees rotated.size)
  else if mode = "max_area" then
    some (get_rotated_rect_max_area inputW inputH degrees)
  else none

/-- RotateCropProcessor prep and process: extend is forced to true and
color to none, the rotation runs, and for non-transposable angles the
result is cropped around the center to the strategy-computed size. -/
noncomputable def rotateCropProcess (b : PILBackend) (o : RotateCropOptions)
    (img : Img) : Except PyError Img :=
  let forced : RotateOptions :=
    { degrees := o.degrees, extend := true, color := none,
      preserve_transparency := o.preserve_transparency }
  match rotateProcess b forced img with
  | .error e => .error e
  | .ok rotated =>
      if transposable o.degrees then .ok rotated
      else
        match rotateCropRect o.crop_mode img.width img.height o.degrees rotated with
        | none => .error (.attributeError ("get_rotated_rect_" ++ o.crop_mode))
        | some wh =>
            match get_crop_box rotated wh.1 wh.2 "center" with
            | .error e => .error e
            | .ok box => .ok (rotated.crop box)

/-- Python falsy-or of an optional or zero dimension against a default,
as used by ResizeProcessor.prep and by the engine resize call. -/
def pyOrDim (o : Option ℤ) (d : ℕ) : ℤ :=
  match o with
  | none => (d : ℤ)
  | some v => if v = 0 then (d : ℤ) else v

/-- Pair of sequential updates shared by the upscale block and by the
enlarge-for-cropping block of ResizeProcessor.get_scaled_size: grow the
current size so that both dimensions reach the box, via the original
aspect ratio. -/
def growToBox (bw bh ar : ℚ) (p : ℚ × ℚ) : ℚ × ℚ :=
  let p := if p.1 < bw then (bw, bw / ar) else p
  if p.2 < bh then (bh * ar, bh) else p

/-- Pair of sequential updates of the fit-into-bounding-box block of
ResizeProcessor.get_scaled_size: shrink each dimension that exceeds the
box, scaling the other one proportionally, truncating to integers with a
1 pixel minimum. -/
def shrinkToBox (bw bh : ℚ) (p : ℚ × ℚ) : ℚ × ℚ :=
  let p :=
    if p.1 > bw then ((truncQ bw : ℚ), (truncQ (max (p.2 * bw / p.1) 1) : ℚ))
    else p
  if p.2 > bh then ((truncQ (max (p.1 * bh / p.2) 1) : ℚ), (truncQ bh : ℚ))
  else p

/-- ResizeProcessor.get_scaled_size: the size the image is resized to,
before any anchor crop.  Sequential float updates of the source are
modelled by successive rational values. -/
def getScaledSize (inputW inputH : ℕ) (W H : ℤ) (fit : String)
    (upscale : Bool) : ℤ × ℤ :=
  let ar : ℚ := (inputW : ℚ) / (inputH : ℚ)
  let p0 : ℚ × ℚ := ((inputW : ℚ), (inputH : ℚ))
  let p1 := if upscale then growToBox (W : ℚ) (H : ℚ) ar p0 else p0
  let p2 := shrinkToBox (W : ℚ) (H : ℚ) p1
  let p3 := if fit ≠ "fit" then growToBox (W : ℚ) (H : ℚ) ar p2 else p2
  (⌈p3.1⌉, ⌈p3.2⌉)

/-- ResizeProcessor prep and process: defaulting of absent or zero box
dimensions to the source size, resize to the scaled size, and for
non-fit modes an anchor crop to the box. -/
def resizeProcess (b : PILBackend) (width height : Option ℤ) (fit : String)
    (upscale : Bool) (img : Img) : Except PyError Img :=
  let W : ℤ := pyOrDim width img.width
  let H : ℤ := pyOrDim height img.height
  let resized := b.resize img (getScaledSize img.width img.height W H fit upscale)
  if fit ≠ "fit" then
    match get_crop_box resized W H fit with
    | .error e => .error e
    | .ok box => .ok (resized.crop box)
  else .ok resized

/-- A multires recipe restricted to the fields the engine reads, with the
model defaults of the source. -/
structure Recipe where
  flip : String := ""
  rotate : ℤ := 0
  rotate_crop : String := ""
  rotate_color : Option Pixel := none
  crop : Option (Option ℚ × Option ℚ × Option ℚ × Option ℚ) := none
  width : Option ℤ := none
  height : Option ℤ := none
  upscale : Bool := false
  fit : String := "fit"
  file_type : String := "jpeg"
  quality : Option ℤ := none

/-- Python truthiness of an optional integer field. -/
def optIntTruthy (o : Option ℤ) : Bool :=
  match o with
  | none => false
  | some v => v != 0

/-- DefaultEngine.process: flip, then rotate (plain or crop variant),
then crop, then resize, each stage gated by the recipe field. -/
noncomputable def engineProcess (b : PILBackend) (r : Recipe) (img : Img) :
    Except PyError Img :=
  let img1 := if r.flip ≠ "" then flipProcess img r.flip else img
  let rotateStage : Except PyError Img :=
    if r.rotate ≠ 0 then
      if r.rotate_crop = "" then
        rotateProcess b
          { degrees := r.rotate, color := r.rotate_color,
            preserve_transparency := false } img1
      else
        rotateCropProcess b
          { degrees := r.rotate, color := r.rotate_color,
            preserve_transparency := false, crop_mode := r.rotate_crop } img1
    else .ok img1
  match rotateStage with
  | .error e => .error e
  | .ok img2 =>
      let img3 := if r.crop ≠ none then cropProcess img2 r.crop true else img2
      if optIntTruthy r.width || optIntTruthy r.height then
        resizeProcess b (some (pyOrDim r.width img3.width))
          (some (pyOrDim r.height img3.height)) r.fit r.upscale img3
      else .ok img3

/-- The encoded artifact produced by DefaultEngine.save: the synthetic
filename, the declared format, the quality keyword passed to the encoder
if any, and the image buffer as it is handed to the encoder. -/
structure Artifact where
  name : String
  format : String
  quality : Option ℤ
  image : Img

/-- DefaultEngine.FILE_TYPE_EXT_MAPPING with the dict get fallback. -/
def fileTypeExtMapping (t : String) : String :=
  if t = "jpeg" then "jpg" else if t = "png" then "png" else t

/-- DefaultEngine.save: derive the extension, pass quality for jpeg, and
normalize the color mode to RGB for jpeg when needed. -/
def engineSave (b : PILBackend) (r : Recipe) (img : Img) : Artifact :=
  let name := "." ++ fileTypeExtMapping r.file_type
  let quality : Option ℤ :=
    if r.file_type = "jpeg" ∧ optIntTruthy r.quality then r.quality else none
  let img :=
    if r.file_type = "jpeg" ∧ img.mode ≠ "RGB" ∧ img.mode ≠ "RGBA" then
      b.convert img "RGB"
    else img
  { name := name, format := r.file_type, quality := quality, image := img }

/-- DefaultEngine call: full processing followed by save. -/
noncomputable def engineCall (b : PILBackend) (r : Recipe) (img : Img) :
    Except PyError Artifact :=
  (engineProcess b r img).map (engineSave b r)

/-- A concrete image of the given size and mode with a constant buffer,
used to evaluate the model on examples. -/
def sampleImg (w h : ℕ) (mode : String) : Img :=
  { width := w, height := h, mode := mode, pixel := fun _ _ => (0, 0, 0, 0) }

/-! Helper lemmas about truncation. -/

theorem truncQ_of_nonneg {q : ℚ} (h : 0 ≤ q) : truncQ q = ⌊q⌋ := by
  rw [truncQ, if_neg (not_lt.mpr h)]

theorem truncQ_intCast (n : ℤ) : truncQ (n : ℚ) = n := by
  rw [truncQ]
  split_ifs with h
  · rw [← Int.cast_neg, Int.floor_intCast]
    ring
  · exact Int.floor_intCast n

theorem truncQ_natCast (n : ℕ) : truncQ (n : ℚ) = n := by
  have h := truncQ_intCast (n : ℤ)
  rw [Int.cast_natCast] at h
  exact h

theorem truncQ_zero : truncQ 0 = 0 := truncQ_intCast 0

/-- C5: identity laws.  Flipping with the empty flip mode returns the
image unchanged; rotating by 0 degrees returns the image unchanged
regardless of all other options; cropping with the zero crop box returns
a pixel-identical image in any color mode. -/
theorem identity_laws (b : PILBackend) (img : Img) (extend : Bool)
    (color : Option Pixel) (pt : Bool) :
    flipProcess img "" = img ∧
    rotateProcess b ⟨0, extend, color, pt⟩ img = .ok img ∧
    (cropProcess img (some (some 0, some 0, some 0, some 0)) true).pixelIdentical
      img := by
  refine ⟨rfl, rfl, ?_⟩
  have hbox : cropGetCropBox img.width img.height
      (some (some 0, some 0, some 0, some 0)) true =
      (0, 0, (img.width : ℤ), (img.height : ℤ)) := by
    simp [cropGetCropBox, truncQ_zero, truncQ_natCast]
  rw [cropProcess, hbox]
  refine ⟨?_, ?_, rfl, ?_⟩
  · simp [Img.crop]
  · simp [Img.crop]
  · intro x y hx hy
    rw [Img.crop] at hx hy ⊢
    simp only [sub_zero, Int.toNat_natCast] at hx hy
    simp only [zero_add]
    rw [if_pos]
    · simp
    · refine ⟨by positivity, ?_, by positivity, ?_⟩ <;> exact_mod_cast ‹_›

/-- Closed form of the crop box for the right anchor. -/
theorem get_crop_box_right (img : Img) (tw th : ℤ) :
    get_crop_box img tw th "right" =
      .ok ((img.width : ℤ) - min tw (img.width : ℤ),
           truncQ ((truncQ ((img.height : ℚ) * (1 / 2)) : ℚ) -
             (min th (img.height : ℤ) : ℚ) * (1 / 2)),
           (img.width : ℤ) - min tw (img.width : ℤ) + min tw (img.width : ℤ),
           truncQ ((truncQ ((img.height : ℚ) * (1 / 2)) : ℚ) -
             (min th (img.height : ℤ) : ℚ) * (1 / 2)) + min th (img.height : ℤ)) := by
  have hclw : (if tw > (img.width : ℤ) then (img.width : ℤ) else tw) =
      min tw (img.width : ℤ) := by
    split_ifs <;> omega
  have hclh : (if th > (img.height : ℤ) then (img.height : ℤ) else th) =
      min th (img.height : ℤ) := by
    split_ifs <;> omega
  simp only [get_crop_box, hclw, hclh]
  norm_num
  rw [if_neg (by decide), if_neg (by decide), if_neg (by decide)]

/-- C6: for the right anchor, the crop box has horizontal offset equal to
the image width minus the target width and vertical offset equal to the
truncated difference of the image vertical center and half the target
height, after the target dimensions are clamped to the image size; in
particular on a 100 by 100 image with a 40 by 40 target the box is
(60, 30, 100, 70). -/
theorem anchor_crop_right (img : Img) (tw th : ℤ) :
    get_crop_box img tw th "right" =
      .ok ((img.width : ℤ) - min tw (img.width : ℤ),
           truncQ ((truncQ ((img.height : ℚ) * (1 / 2)) : ℚ) -
             (min th (img.height : ℤ) : ℚ) * (1 / 2)),
           (img.width : ℤ) - min tw (img.width : ℤ) + min tw (img.width : ℤ),
           truncQ ((truncQ ((img.height : ℚ) * (1 / 2)) : ℚ) -
             (min th (img.height : ℤ) : ℚ) * (1 / 2)) + min th (img.height : ℤ)) ∧
    get_crop_box (sampleImg 100 100 "RGB") 40 40 "right" = .ok (60, 30, 100, 70) := by
  refine ⟨get_crop_box_right img tw th, ?_⟩
  rw [get_crop_box_right (sampleImg 100 100 "RGB") 40 40]
  norm_num [sampleImg, truncQ_of_nonneg]

/-- C8: encoding with the jpeg file type converts any image whose mode is
neither RGB nor RGBA to RGB before encoding; encoding with the png file
type forces no mode conversion at all. -/
theorem encoder_mode_normalization (b : PILBackend) (r : Recipe) (img : Img) :
    (r.file_type = "jpeg" → img.mode ≠ "RGB" → img.mode ≠ "RGBA" →
      (engineSave b r img).image.mode = "RGB") ∧
    (r.file_type = "png" → (engineSave b r img).image = img) := by
  constructor
  · intro hft h1 h2
    simp only [engineSave]
    rw [if_pos ⟨hft, h1, h2⟩]
    rfl
  · intro hft
    simp only [engineSave]
    rw [if_neg]
    rintro ⟨hj, -⟩
    rw [hft] at hj
    exact absurd hj (by decide)

/-- Witness for C8 at a palette-mode image. -/
theorem encoder_mode_normalization_witness :
    (engineSave trivialBackend { file_type := "jpeg" } (sampleImg 10 10 "P")).image.mode
      = "RGB" ∧
    (engineSave trivialBackend { file_type := "png" } (sampleImg 10 10 "P")).image
      = sampleImg 10 10 "P" :=
  ⟨(encoder_mode_normalization trivialBackend { file_type := "jpeg" }
      (sampleImg 10 10 "P")).1 rfl (by decide) (by decide),
   (encoder_mode_normalization trivialBackend { file_type := "png" }
      (sampleImg 10 10 "P")).2 rfl⟩

/-- C9: in the max_area strategy the angle is the raw signed degrees and
only sine and cosine are taken in absolute value, so for positive input
dimensions the result is the same for degrees and for minus degrees. -/
theorem max_area_sign_symmetric (w h : ℕ) (d : ℤ) (hw : 0 < w) (hh : 0 < h) :
    get_rotated_rect_max_area w h d = get_rotated_rect_max_area w h (-d) := by
  unfold get_rotated_rect_max_area
  simp only [Int.cast_neg, neg_mul, neg_div, Real.sin_neg, Real.cos_neg, abs_neg]

/-- Witness for C9 at a 100 by 50 input rotated by 30 degrees. -/
theorem max_area_sign_symmetric_witness :
    get_rotated_rect_max_area 100 50 30 = get_rotated_rect_max_area 100 50 (-30) :=
  max_area_sign_symmetric 100 50 30 (by decide) (by decide)

/-- C10: the 90-degree fast path of the rotate operator is defined only
for degrees 0, 90, 180 and 270: any other multiple of 90 raises an
AttributeError from the ROTATE_ transpose-constant lookup instead of
returning a rotated image. -/
theorem rotate_fast_path_domain (b : PILBackend) (o : RotateOptions) (img : Img)
    (h90 : o.degrees % 90 = 0) (h0 : o.degrees ≠ 0) (h1 : o.degrees ≠ 90)
    (h2 : o.degrees ≠ 180) (h3 : o.degrees ≠ 270) :
    rotateProcess b o img =
      .error (.attributeError ("ROTATE_" ++ toString o.degrees)) := by
  simp [rotateProcess, transposable, rotateTransposeConst, h90, h0, h1, h2, h3]

/-- Witness for C10 at 360 degrees. -/
theorem rotate_fast_path_domain_witness :
    rotateProcess trivialBackend { degrees := 360 } (sampleImg 10 10 "RGB") =
      .error (.attributeError ("ROTATE_" ++ toString (360 : ℤ))) :=
  rotate_fast_path_domain trivialBackend { degrees := 360 } (sampleImg 10 10 "RGB")
    (by decide) (by decide) (by decide) (by decide) (by decide)

/-- Counterexample for C2: the resize operator called with zero width and
height does not raise; it returns a processed image. -/
theorem resize_zero_box_returns_ok :
    resizeProcess trivialBackend (some 0) (some 0) "fit" false
      (sampleImg 100 80 "RGB") = .ok (sampleImg 100 80 "RGB") := rfl

/-- Scaled size is the identity when the box equals the source size. -/
theorem getScaledSize_self (w h : ℕ) :
    getScaledSize w h (w : ℤ) (h : ℤ) "fit" false = ((w : ℤ), (h : ℤ)) := by
  simp [getScaledSize, shrinkToBox, Int.ceil_natCast]

/-- C2 amended: a zero-valued bounding-box dimension is falsy, so it is
replaced by the source dimension; the call succeeds with the source size
and no error is raised. -/
theorem resize_zero_box_uses_source_dims (b : PILBackend) (img : Img) :
    resizeProcess b (some 0) (some 0) "fit" false img =
      .ok (b.resize img ((img.width : ℤ), (img.height : ℤ))) ∧
    (b.resize img ((img.width : ℤ), (img.height : ℤ))).width = img.width ∧
    (b.resize img ((img.width : ℤ), (img.height : ℤ))).height = img.height := by
  refine ⟨?_, by simp [PILBackend.resize], by simp [PILBackend.resize]⟩
  simp [resizeProcess, pyOrDim, getScaledSize_self]

/-- Counterexample for C7: at minus 90 degrees, a multiple of 90, the
rotate-crop operator raises an AttributeError instead of returning the
transposed image. -/
theorem rotate_crop_neg90_attribute_error :
    rotateCropProcess trivialBackend { degrees := -90 } (sampleImg 10 10 "RGB") =
      .error (.attributeError ("ROTATE_" ++ toString (-90 : ℤ))) := rfl

/-- C7 amended: every invocation of the rotate-crop operator forces the
extend option to true and the color option to none, ignoring the values
supplied by the caller; when degrees is 0, 90, 180 or 270 the operator
returns the transposed image unmodified with no crop applied.  Other
multiples of 90 raise from the transpose-constant lookup. -/
theorem rotate_crop_forced_options_fast_path (b : PILBackend) (img : Img)
    (d : ℤ) (e : Bool) (c : Option Pixel) (pt : Bool) (m : String) :
    rotateCropProcess b ⟨⟨d, e, c, pt⟩, m⟩ img =
      rotateCropProcess b ⟨⟨d, true, none, pt⟩, m⟩ img ∧
    (d = 0 → rotateCropProcess b ⟨⟨d, e, c, pt⟩, m⟩ img = .ok img) ∧
    (d = 90 → rotateCropProcess b ⟨⟨d, e, c, pt⟩, m⟩ img =
      .ok (img.transpose .rotate90)) ∧
    (d = 180 → rotateCropProcess b ⟨⟨d, e, c, pt⟩, m⟩ img =
      .ok (img.transpose .rotate180)) ∧
    (d = 270 → rotateCropProcess b ⟨⟨d, e, c, pt⟩, m⟩ img =
      .ok (img.transpose .rotate270)) := by
  refine ⟨rfl, ?_, ?_, ?_, ?_⟩ <;> (rintro rfl; rfl)

/-- Witness for C7 at 90 degrees with caller-supplied extend and color. -/
theorem rotate_crop_forced_witness :
    rotateCropProcess trivialBackend ⟨⟨90, false, some (0, 0, 0, 255), true⟩, "max_area"⟩
        (sampleImg 10 20 "RGB") =
      .ok ((sampleImg 10 20 "RGB").transpose .rotate90) :=
  (rotate_crop_forced_options_fast_path trivialBackend (sampleImg 10 20 "RGB")
      90 false (some (0, 0, 0, 255)) true "max_area").2.2.1 rfl

/-! Helper lemmas for the resize dimension contract. -/

theorem floor_max_one_pos (u : ℚ) : 0 < ⌊max u 1⌋ :=
  lt_of_lt_of_le zero_lt_one
    (Int.le_floor.mpr (by exact_mod_cast le_max_right u 1))

theorem truncQ_max_one (u : ℚ) : truncQ (max u 1) = ⌊max u 1⌋ :=
  truncQ_of_nonneg (le_trans zero_le_one (le_max_right u 1))

theorem floor_max_one_abs {u : ℚ} (hu : 0 < u) : |(⌊max u 1⌋ : ℚ) - u| ≤ 1 := by
  rcases le_or_lt 1 u with h1 | h1
  · rw [max_eq_left h1, abs_le]
    exact ⟨by linarith [Int.sub_one_lt_floor u], by linarith [Int.floor_le u]⟩
  · rw [max_eq_right h1.le, abs_le, Int.floor_one]
    constructor <;> push_cast <;> linarith

theorem floor_max_one_le {u : ℚ} {W : ℤ} (hle : u ≤ (W : ℚ)) (hW : 0 < W) :
    ⌊max u 1⌋ ≤ W := by
  have h1 : max u 1 ≤ (W : ℚ) := max_le hle (by exact_mod_cast hW)
  calc ⌊max u 1⌋ ≤ ⌊(W : ℚ)⌋ := Int.floor_le_floor h1
    _ = W := Int.floor_intCast W

/-- Effect of the shrink block of get_scaled_size on a positive source and
a positive box: the result is a pair of positive integers within the box
that scales the source uniformly up to one pixel of truncation in each
dimension. -/
theorem shrinkToBox_spec (w h : ℕ) (W H : ℤ) (hw : 0 < w) (hh : 0 < h)
    (hW : 0 < W) (hH : 0 < H) :
    ∃ a bb : ℤ, shrinkToBox (W : ℚ) (H : ℚ) ((w : ℚ), (h : ℚ)) = ((a : ℚ), (bb : ℚ)) ∧
      0 < a ∧ 0 < bb ∧ a ≤ W ∧ bb ≤ H ∧
      ∃ s : ℚ, 0 < s ∧ |(a : ℚ) - s * w| ≤ 1 ∧ |(bb : ℚ) - s * h| ≤ 1 := by
  have hwq : (0 : ℚ) < w := by exact_mod_cast hw
  have hhq : (0 : ℚ) < h := by exact_mod_cast hh
  have hWq : (0 : ℚ) < W := by exact_mod_cast hW
  have hHq : (0 : ℚ) < H := by exact_mod_cast hH
  rw [shrinkToBox]
  dsimp only
  simp only [truncQ_intCast, truncQ_max_one]
  split_ifs with hc1 hc2 hc2
  · -- both shrink branches taken
    dsimp only at hc2 ⊢
    set t : ℚ := (h : ℚ) * (W : ℚ) / (w : ℚ) with ht
    have htpos : 0 < t := by positivity
    set b1 : ℤ := ⌊max t 1⌋ with hb1
    have hb1pos : 0 < b1 := floor_max_one_pos t
    have hb1q : (0 : ℚ) < (b1 : ℚ) := by exact_mod_cast hb1pos
    have hHb1 : H < b1 := by exact_mod_cast hc2
    set u : ℚ := (W : ℚ) * (H : ℚ) / (b1 : ℚ) with hu
    have hupos : 0 < u := by positivity
    refine ⟨⌊max u 1⌋, H, by push_cast; ring_nf, floor_max_one_pos u, hH, ?_, le_refl H, ?_⟩
    · refine floor_max_one_le ?_ hW
      rw [hu, div_le_iff hb1q]
      have : (H : ℚ) ≤ (b1 : ℚ) := by exact_mod_cast hHb1.le
      nlinarith
    · -- the scale
      have hHq2 : (H : ℚ) + 1 ≤ (b1 : ℚ) := by exact_mod_cast hHb1
      refine ⟨(W : ℚ) * (H : ℚ) / ((b1 : ℚ) * (w : ℚ)), by positivity, ?_, ?_⟩
      · have : (W : ℚ) * (H : ℚ) / ((b1 : ℚ) * (w : ℚ)) * (w : ℚ) = u := by
          rw [hu]; field_simp; ring
        rw [this]
        exact floor_max_one_abs hupos
      · -- t is at least 1, hence b1 is its floor
        have htge1 : (1 : ℚ) ≤ t := by
          by_contra hlt
          push_neg at hlt
          have : b1 = 1 := by rw [hb1, max_eq_right hlt.le, Int.floor_one]
          omega
        have hb1t : b1 = ⌊t⌋ := by rw [hb1, max_eq_left htge1]
        have hfl : (b1 : ℚ) ≤ t := by rw [hb1t]; exact_mod_cast Int.floor_le t
        have hfu : t < (b1 : ℚ) + 1 := by rw [hb1t]; exact_mod_cast Int.lt_floor_add_one t
        have hsh : (W : ℚ) * (H : ℚ) / ((b1 : ℚ) * (w : ℚ)) * (h : ℚ) =
            (H : ℚ) * t / (b1 : ℚ) := by
          rw [ht]; field_simp; ring
        rw [hsh, abs_le]
        constructor
        · have hb : (H : ℚ) * t ≤ ((H : ℚ) + 1) * (b1 : ℚ) := by nlinarith
          have h2 : (H : ℚ) * t / (b1 : ℚ) ≤ (H : ℚ) + 1 := by
            rw [div_le_iff hb1q]
            linarith
          linarith
        · have h1 : (H : ℚ) ≤ (H : ℚ) * t / (b1 : ℚ) := by
            rw [le_div_iff hb1q]
            nlinarith
          linarith
  · -- only the width shrink branch taken
    dsimp only at hc2 ⊢
    set t : ℚ := (h : ℚ) * (W : ℚ) / (w : ℚ) with ht
    have htpos : 0 < t := by positivity
    push_neg at hc2
    refine ⟨W, ⌊max t 1⌋, rfl, hW, floor_max_one_pos t, le_refl W, by exact_mod_cast hc2, ?_⟩
    refine ⟨(W : ℚ) / (w : ℚ), by positivity, ?_, ?_⟩
    · have : (W : ℚ) / (w : ℚ) * (w : ℚ) = (W : ℚ) := by field_simp
      rw [this]
      simp
    · have : (W : ℚ) / (w : ℚ) * (h : ℚ) = t := by rw [ht]; ring
      rw [this]
      exact floor_max_one_abs htpos
  · -- only the height shrink branch taken
    dsimp only at hc2 ⊢
    push_neg at hc1
    set u : ℚ := (w : ℚ) * (H : ℚ) / (h : ℚ) with hu
    have hupos : 0 < u := by positivity
    refine ⟨⌊max u 1⌋, H, rfl, floor_max_one_pos u, hH, ?_, le_refl H, ?_⟩
    · refine floor_max_one_le (le_trans ?_ hc1) hW
      rw [hu, div_le_iff hhq]
      nlinarith
    · refine ⟨(H : ℚ) / (h : ℚ), by positivity, ?_, ?_⟩
      · have : (H : ℚ) / (h : ℚ) * (w : ℚ) = u := by rw [hu]; ring
        rw [this]
        exact floor_max_one_abs hupos
      · have : (H : ℚ) / (h : ℚ) * (h : ℚ) = (H : ℚ) := by field_simp
        rw [this]
        simp
  · -- no shrink branch taken
    dsimp only at hc1 hc2 ⊢
    push_neg at hc1 hc2
    refine ⟨(w : ℤ), (h : ℤ), by push_cast; rfl, by exact_mod_cast hw,
      by exact_mod_cast hh, by exact_mod_cast hc1, by exact_mod_cast hc2, 1, one_pos, ?_, ?_⟩
    · push_cast
      simp
    · push_cast
      simp

/-- The grow block leaves both dimensions at or above the box whenever
the input pair already satisfies the cross condition encoded by hkey. -/
theorem growToBox_ge (bw bh ar : ℚ) (p : ℚ × ℚ) (har : 0 < ar)
    (hkey : bw ≤ p.1 → p.2 < bh → bw ≤ bh * ar) :
    bw ≤ (growToBox bw bh ar p).1 ∧ bh ≤ (growToBox bw bh ar p).2 := by
  rw [growToBox]
  by_cases hc3 : p.1 < bw
  · rw [if_pos hc3]
    dsimp only
    by_cases hc4 : bw / ar < bh
    · rw [if_pos hc4]
      exact ⟨((div_lt_iff har).mp hc4).le, le_refl bh⟩
    · rw [if_neg hc4]
      exact ⟨le_refl bw, not_lt.mp hc4⟩
  · rw [if_neg hc3]
    by_cases hc4 : p.2 < bh
    · rw [if_pos hc4]
      exact ⟨hkey (not_lt.mp hc3) hc4, le_refl bh⟩
    · rw [if_neg hc4]
      exact ⟨not_lt.mp hc3, not_lt.mp hc4⟩

/-- Cross condition of the shrink output needed by the grow block: if the
shrunk width is still at least the box width while the shrunk height is
below the box height, the box width fits under the aspect-scaled box
height. -/
theorem shrinkToBox_key (w h : ℕ) (W H : ℤ) (hw : 0 < w) (hh : 0 < h)
    (hW : 0 < W) (hH : 0 < H) :
    (W : ℚ) ≤ (shrinkToBox (W : ℚ) (H : ℚ) ((w : ℚ), (h : ℚ))).1 →
    (shrinkToBox (W : ℚ) (H : ℚ) ((w : ℚ), (h : ℚ))).2 < (H : ℚ) →
    (W : ℚ) ≤ (H : ℚ) * ((w : ℚ) / (h : ℚ)) := by
  have hwq : (0 : ℚ) < w := by exact_mod_cast hw
  have hhq : (0 : ℚ) < h := by exact_mod_cast hh
  have hWq : (0 : ℚ) < W := by exact_mod_cast hW
  have hHq : (1 : ℚ) ≤ H := by exact_mod_cast hH
  rw [shrinkToBox]
  dsimp only
  simp only [truncQ_intCast, truncQ_max_one]
  split_ifs with hc1 hc2 hc2
  · -- both shrink branches taken: height component is exactly H
    intro _ habs
    dsimp only at habs
    exact absurd habs (lt_irrefl _)
  · -- width shrink only
    intro _ hlt
    dsimp only at hlt
    set t : ℚ := (h : ℚ) * (W : ℚ) / (w : ℚ) with ht
    rw [← mul_div_assoc, le_div_iff hhq]
    rcases le_or_lt 1 t with h1 | h1
    · have hb1t : ⌊max t 1⌋ = ⌊t⌋ := by rw [max_eq_left h1]
      rw [hb1t] at hlt
      have hfloct : ⌊t⌋ < H := by exact_mod_cast hlt
      have htH : t < (H : ℚ) := by
        have := Int.lt_floor_add_one t
        have hle : (⌊t⌋ : ℚ) + 1 ≤ (H : ℚ) := by exact_mod_cast hfloct
        linarith
      rw [ht, div_lt_iff hwq] at htH
      nlinarith
    · have htlt : (h : ℚ) * (W : ℚ) < (w : ℚ) := by
        rw [ht, div_lt_iff hwq] at h1
        linarith
      nlinarith
  · -- height shrink only: height component is exactly H
    intro _ habs
    dsimp only at habs
    exact absurd habs (lt_irrefl _)
  · -- no shrink branch taken
    dsimp only
    intro hge hlt
    rw [← mul_div_assoc, le_div_iff hhq]
    nlinarith

/-- Scaled size for a non-fit mode reaches the box in both dimensions. -/
theorem getScaledSize_top_ge (w h : ℕ) (W H : ℤ) (hw : 0 < w) (hh : 0 < h)
    (hW : 0 < W) (hH : 0 < H) (fit : String) (hfit : fit ≠ "fit") :
    W ≤ (getScaledSize w h W H fit false).1 ∧
    H ≤ (getScaledSize w h W H fit false).2 := by
  have har : (0 : ℚ) < (w : ℚ) / (h : ℚ) := by
    have hwq : (0 : ℚ) < w := by exact_mod_cast hw
    have hhq : (0 : ℚ) < h := by exact_mod_cast hh
    positivity
  obtain ⟨hg1, hg2⟩ := growToBox_ge (W : ℚ) (H : ℚ) ((w : ℚ) / (h : ℚ))
    (shrinkToBox (W : ℚ) (H : ℚ) ((w : ℚ), (h : ℚ))) har
    (shrinkToBox_key w h W H hw hh hW hH)
  simp only [getScaledSize, Bool.false_eq_true, if_false]
  rw [if_pos hfit]
  constructor
  · calc W = ⌈((W : ℤ) : ℚ)⌉ := (Int.ceil_intCast W).symm
      _ ≤ _ := Int.ceil_le_ceil hg1
  · calc H = ⌈((H : ℤ) : ℚ)⌉ := (Int.ceil_intCast H).symm
      _ ≤ _ := Int.ceil_le_ceil hg2

/-- Scaled size in fit mode: an integer pair inside the box scaling the
source uniformly up to one pixel of truncation. -/
theorem getScaledSize_fit_spec (w h : ℕ) (W H : ℤ) (hw : 0 < w) (hh : 0 < h)
    (hW : 0 < W) (hH : 0 < H) :
    ∃ a bb : ℤ, getScaledSize w h W H "fit" false = (a, bb) ∧ 0 < a ∧ 0 < bb ∧
      a ≤ W ∧ bb ≤ H ∧
      ∃ s : ℚ, 0 < s ∧ |(a : ℚ) - s * w| ≤ 1 ∧ |(bb : ℚ) - s * h| ≤ 1 := by
  obtain ⟨a, bb, heq, ha, hb, haW, hbH, s, hs, h1, h2⟩ :=
    shrinkToBox_spec w h W H hw hh hW hH
  refine ⟨a, bb, ?_, ha, hb, haW, hbH, s, hs, h1, h2⟩
  simp only [getScaledSize, Bool.false_eq_true, if_false]
  rw [if_neg (by simp), heq]
  dsimp only
  rw [Int.ceil_intCast, Int.ceil_intCast]

/-- C3: dimension contract of the resize operator.  In fit mode with a
positive bounding box the result never exceeds the box (so its maximum
dimension is at most the maximum box dimension) and the source aspect
ratio is preserved up to one pixel of rounding in each dimension, in the
sense that both output dimensions come from one common scale factor; in
the top anchor mode the result size equals the box exactly. -/
theorem resize_dimension_contract (b : PILBackend) (img : Img) (W H : ℤ)
    (hw : 0 < img.width) (hh : 0 < img.height) (hW : 0 < W) (hH : 0 < H) :
    (∃ out, resizeProcess b (some W) (some H) "fit" false img = .ok out ∧
      max (out.width : ℤ) (out.height : ℤ) ≤ max W H ∧
      ∃ s : ℚ, 0 < s ∧ |(out.width : ℚ) - s * img.width| ≤ 1 ∧
        |(out.height : ℚ) - s * img.height| ≤ 1) ∧
    (∃ out, resizeProcess b (some W) (some H) "top" false img = .ok out ∧
      (out.width : ℤ) = W ∧ (out.height : ℤ) = H) := by
  have hpyW : pyOrDim (some W) img.width = W := by simp [pyOrDim, hW.ne']
  have hpyH : pyOrDim (some H) img.height = H := by simp [pyOrDim, hH.ne']
  constructor
  · obtain ⟨a, bb, heq, ha, hb, haW, hbH, s, hs, h1, h2⟩ :=
      getScaledSize_fit_spec img.width img.height W H hw hh hW hH
    have hwa : ((b.resize img (a, bb)).width : ℤ) = a := by
      rw [PILBackend.resize]
      exact Int.toNat_of_nonneg ha.le
    have hhb : ((b.resize img (a, bb)).height : ℤ) = bb := by
      rw [PILBackend.resize]
      exact Int.toNat_of_nonneg hb.le
    refine ⟨b.resize img (a, bb), ?_, ?_, s, hs, ?_, ?_⟩
    · simp only [resizeProcess, hpyW, hpyH, heq]
      rw [if_neg (by simp)]
    · rw [hwa, hhb]
      exact max_le_max haW hbH
    · have : ((b.resize img (a, bb)).width : ℚ) = (a : ℚ) := by
        exact_mod_cast congrArg (fun z : ℤ => (z : ℚ)) hwa
      rw [this]
      exact h1
    · have : ((b.resize img (a, bb)).height : ℚ) = (bb : ℚ) := by
        exact_mod_cast congrArg (fun z : ℤ => (z : ℚ)) hhb
      rw [this]
      exact h2
  · obtain ⟨hg1, hg2⟩ :=
      getScaledSize_top_ge img.width img.height W H hw hh hW hH "top" (by decide)
    set p := getScaledSize img.width img.height W H "top" false with hp
    have hrw : ((b.resize img p).width : ℤ) = p.1 := by
      rw [PILBackend.resize]
      exact Int.toNat_of_nonneg (le_trans hW.le hg1)
    have hrh : ((b.resize img p).height : ℤ) = p.2 := by
      rw [PILBackend.resize]
      exact Int.toNat_of_nonneg (le_trans hH.le hg2)
    have hbox : ∃ box, get_crop_box (b.resize img p) W H "top" = .ok box ∧
        box.2.2.1 - box.1 = W ∧ box.2.2.2 - box.2.1 = H := by
      rw [get_crop_box]
      rw [if_neg (not_lt.mpr (le_of_le_of_eq hg1 hrw.symm)),
          if_neg (not_lt.mpr (le_of_le_of_eq hg2 hrh.symm))]
      rw [if_neg (by decide), if_pos rfl]
      exact ⟨_, rfl, by ring, by ring⟩
    obtain ⟨box, hbox, hbw, hbh⟩ := hbox
    refine ⟨(b.resize img p).crop box, ?_, ?_, ?_⟩
    · simp only [resizeProcess, hpyW, hpyH, ← hp]
      rw [if_pos (by decide), hbox]
    · rw [Img.crop]
      dsimp only
      rw [hbw]
      exact Int.toNat_of_nonneg hW.le
    · rw [Img.crop]
      dsimp only
      rw [hbh]
      exact Int.toNat_of_nonneg hH.le

/-- Witness for C3 on a 100 by 80 source with a 50 by 40 box. -/
theorem resize_dimension_contract_witness :
    (∃ out, resizeProcess trivialBackend (some 50) (some 40) "fit" false
        (sampleImg 100 80 "RGB") = .ok out ∧
      max (out.width : ℤ) (out.height : ℤ) ≤ max 50 40 ∧
      ∃ s : ℚ, 0 < s ∧ |(out.width : ℚ) - s * 100| ≤ 1 ∧
        |(out.height : ℚ) - s * 80| ≤ 1) ∧
    (∃ out, resizeProcess trivialBackend (some 50) (some 40) "top" false
        (sampleImg 100 80 "RGB") = .ok out ∧
      (out.width : ℤ) = 50 ∧ (out.height : ℤ) = 40) :=
  resize_dimension_contract trivialBackend (sampleImg 100 80 "RGB") 50 40
    (by decide) (by decide) (by decide) (by decide)

/-- A crop by a center-anchored crop box never exceeds the source size,
because get_crop_box clamps the target dimensions to the image. -/
theorem crop_center_le (img : Img) (tw th : ℤ) (box : ℤ × ℤ × ℤ × ℤ)
    (hbox : get_crop_box img tw th "center" = .ok box) :
    (img.crop box).width ≤ img.width ∧ (img.crop box).height ≤ img.height := by
  rw [get_crop_box, if_pos (Or.inl rfl)] at hbox
  rw [Except.ok.injEq] at hbox
  subst hbox
  rw [Img.crop]
  constructor <;> (dsimp only; split_ifs <;> omega)

/-- C4: for every degrees value and every supported crop mode, if the
rotate-crop operator returns an image, then that image is no wider and no
taller than the post-rotation extended canvas produced by the forced
rotate step. -/
theorem rotate_crop_within_rotated_bounds (b : PILBackend)
    (o : RotateCropOptions) (img : Img) (out : Img)
    (hmode : o.crop_mode = "aspect_ratio" ∨ o.crop_mode = "max_area")
    (hok : rotateCropProcess b o img = .ok out) :
    ∃ rotated, rotateProcess b
        { degrees := o.degrees, extend := true, color := none,
          preserve_transparency := o.preserve_transparency } img = .ok rotated ∧
      out.width ≤ rotated.width ∧ out.height ≤ rotated.height := by
  unfold rotateCropProcess at hok
  dsimp only at hok
  cases hrot : rotateProcess b
      { degrees := o.degrees, extend := true, color := none,
        preserve_transparency := o.preserve_transparency } img with
  | error e => rw [hrot] at hok; simp at hok
  | ok rotated =>
      rw [hrot] at hok
      dsimp only at hok
      refine ⟨rotated, rfl, ?_⟩
      by_cases htr : transposable o.degrees
      · rw [if_pos htr, Except.ok.injEq] at hok
        subst hok
        exact ⟨le_refl _, le_refl _⟩
      · rw [if_neg htr] at hok
        have hrect : ∃ wh, rotateCropRect o.crop_mode img.width img.height
            o.degrees rotated = some wh := by
          rcases hmode with hm | hm <;> rw [rotateCropRect, hm] <;> simp
        obtain ⟨wh, hwh⟩ := hrect
        rw [hwh] at hok
        dsimp only at hok
        cases hcb : get_crop_box rotated wh.1 wh.2 "center" with
        | error e => rw [hcb] at hok; exact absurd hok (by simp)
        | ok box =>
            rw [hcb, Except.ok.injEq] at hok
            subst hok
            exact crop_center_le rotated wh.1 wh.2 box hcb

/-- Witness for C4 at 90 degrees with the max_area mode. -/
theorem rotate_crop_within_rotated_bounds_witness :
    ∃ rotated, rotateProcess trivialBackend
        { degrees := 90, extend := true, color := none,
          preserve_transparency := false } (sampleImg 30 20 "RGB") = .ok rotated ∧
      ((sampleImg 30 20 "RGB").transpose .rotate90).width ≤ rotated.width ∧
      ((sampleImg 30 20 "RGB").transpose .rotate90).height ≤ rotated.height :=
  rotate_crop_within_rotated_bounds trivialBackend ⟨⟨90, true, none, false⟩, "max_area"⟩
    (sampleImg 30 20 "RGB") ((sampleImg 30 20 "RGB").transpose .rotate90)
    (Or.inr rfl) rfl

/-- The recipe of the end-to-end scenario of the specification. -/
def scenarioRecipe : Recipe :=
  { flip := "", rotate := 90, rotate_crop := "", rotate_color := none,
    crop := none, width := some 50, height := some 50, upscale := false,
    fit := "fit", file_type := "jpeg", quality := some 80 }

/-- C1: the end-to-end scenario.  On a 200 by 100 RGB source the recipe
takes the 90-degree rotate fast path producing a 100 by 200 image, then
resizes in fit mode to final size (25, 50), and encodes as JPEG in RGB
mode with filename extension .jpg and quality 80 passed to the encoder. -/
theorem end_to_end_scenario (b : PILBackend) (p : ℕ → ℕ → Pixel) :
    rotateProcess b { degrees := 90, color := none, preserve_transparency := false }
        (Img.mk 200 100 "RGB" p) = .ok ((Img.mk 200 100 "RGB" p).transpose .rotate90) ∧
    ((Img.mk 200 100 "RGB" p).transpose .rotate90).size = (100, 200) ∧
    ∃ out,
      engineProcess b scenarioRecipe (Img.mk 200 100 "RGB" p) = .ok out ∧
      out.width = 25 ∧ out.height = 50 ∧ out.mode = "RGB" ∧
      (engineSave b scenarioRecipe out).name = ".jpg" ∧
      (engineSave b scenarioRecipe out).quality = some 80 ∧
      (engineSave b scenarioRecipe out).image.mode = "RGB" ∧
      engineCall b scenarioRecipe (Img.mk 200 100 "RGB" p) =
        .ok (engineSave b scenarioRecipe out) := by
  have hsize : getScaledSize 100 200 50 50 "fit" false = (25, 50) := by
    simp only [getScaledSize, shrinkToBox, growToBox]
    norm_num [truncQ_of_nonneg]
  have hproc : engineProcess b scenarioRecipe (Img.mk 200 100 "RGB" p) =
      .ok (b.resize ((Img.mk 200 100 "RGB" p).transpose .rotate90) (25, 50)) := by
    calc engineProcess b scenarioRecipe (Img.mk 200 100 "RGB" p)
        = .ok (b.resize ((Img.mk 200 100 "RGB" p).transpose .rotate90)
            (getScaledSize 100 200 50 50 "fit" false)) := rfl
      _ = .ok (b.resize ((Img.mk 200 100 "RGB" p).transpose .rotate90) (25, 50)) := by
          rw [hsize]
  refine ⟨rfl, rfl, b.resize ((Img.mk 200 100 "RGB" p).transpose .rotate90) (25, 50),
    hproc, rfl, rfl, rfl, rfl, rfl, rfl, ?_⟩
  rw [engineCall, hproc]
  rfl

end Multires
